import Mathlib

/-!
# Verification of the metaplex-nft-mint scripts

A shallow embedding of the repository's original logic:

* the quote/token normalization and Solana-address extraction from the
  `linked_accounts` CSV column (`extractSolanaAddress`, `readUsersFromCSV`
  in the collection-mint script; the inline variant in the compressed-mint
  script);
* the fixed-count retry loop with a 5-second inter-attempt delay wrapped
  around upload/mint calls;
* the batch loop of the compressed-mint script (batch size 5, 2-second
  inter-batch delay) and the sequential per-user mint loop;
* the network selection from the CLI argument and the environment checks
  of the script entry points.

External collaborators (the Metaplex SDK, the RPC client, the filesystem)
are modelled as parameters supplying the outcome of each call; JavaScript
builtins used by the scripts (`JSON.parse`, `String.prototype.replace`
with a global literal pattern, `Array.prototype.find`, falsy tests) are
embedded with their ECMAScript semantics on the fragment the scripts use.
-/

namespace NftMint

/-! ## JSON values and `JSON.parse`

The scripts parse the normalized `linked_accounts` text with the
JavaScript builtin `JSON.parse`.  Numbers keep their source lexeme: no
script inspects a numeric value, and this avoids floating-point
semantics.  Object fields are kept in source order; as in JavaScript, a
duplicate key is resolved to its last occurrence by `lookupField`. -/

inductive JsonVal where
  | null
  | bool (b : Bool)
  | num (lexeme : String)
  | str (s : String)
  | arr (items : List JsonVal)
  | obj (fields : List (String × JsonVal))

/-- JSON whitespace accepted by `JSON.parse` between tokens. -/
def isJsonWs (c : Char) : Bool :=
  c = ' ' || c = '\t' || c = '\n' || c = '\r'

def skipWs : List Char → List Char
  | [] => []
  | c :: cs => if isJsonWs c then skipWs cs else c :: cs

/-- The value of one hexadecimal digit, by code point: `0`-`9` are 48-57,
`A`-`F` 65-70, `a`-`f` 97-102. -/
def hexDigit (c : Char) : Option Nat :=
  let n := c.toNat
  if 48 ≤ n ∧ n ≤ 57 then some (n - 48)
  else if 97 ≤ n ∧ n ≤ 102 then some (n - 87)
  else if 65 ≤ n ∧ n ≤ 70 then some (n - 55)
  else none

/-- Body of a JSON string after its opening quote: the decoded characters
and the input after the closing quote.  Escapes follow `JSON.parse`; a
`\u` escape denoting a surrogate code unit is rejected here (a Lean
`Char` is a scalar value), a divergence that no input of this
development reaches. -/
def parseStringChars : List Char → Option (List Char × List Char)
  | [] => none
  | c :: cs =>
    if c = '"' then some ([], cs)
    else if c = '\\' then
      match cs with
      | [] => none
      | e :: cs2 =>
        if e = '"' then (parseStringChars cs2).map (fun p => ('"' :: p.1, p.2))
        else if e = '\\' then (parseStringChars cs2).map (fun p => ('\\' :: p.1, p.2))
        else if e = '/' then (parseStringChars cs2).map (fun p => ('/' :: p.1, p.2))
        else if e = 'b' then (parseStringChars cs2).map (fun p => (Char.ofNat 8 :: p.1, p.2))
        else if e = 'f' then (parseStringChars cs2).map (fun p => (Char.ofNat 12 :: p.1, p.2))
        else if e = 'n' then (parseStringChars cs2).map (fun p => ('\n' :: p.1, p.2))
        else if e = 'r' then (parseStringChars cs2).map (fun p => ('\r' :: p.1, p.2))
        else if e = 't' then (parseStringChars cs2).map (fun p => ('\t' :: p.1, p.2))
        else if e = 'u' then
          match cs2 with
          | h1 :: h2 :: h3 :: h4 :: cs3 =>
            match hexDigit h1, hexDigit h2, hexDigit h3, hexDigit h4 with
            | some a, some b, some c3, some d =>
              let n := a * 4096 + b * 256 + c3 * 16 + d
              if n < 55296 ∨ (57343 < n ∧ n < 1114112) then
                (parseStringChars cs3).map (fun p => (Char.ofNat n :: p.1, p.2))
              else none
            | _, _, _, _ => none
          | _ => none
        else none
    else if c.toNat < 32 then none   -- raw control characters are rejected
    else (parseStringChars cs).map (fun p => (c :: p.1, p.2))

def takeDigits : List Char → List Char × List Char
  | [] => ([], [])
  | c :: cs =>
    if c.isDigit then
      let p := takeDigits cs
      (c :: p.1, p.2)
    else ([], c :: cs)

/-- A JSON number lexeme: `-?(0|[1-9][0-9]*)(.[0-9]+)?([eE][+-]?[0-9]+)?`. -/
def parseNumberLexeme (cs : List Char) : Option (List Char × List Char) :=
  let (sign, cs1) : List Char × List Char :=
    match cs with
    | '-' :: t => (['-'], t)
    | _ => ([], cs)
  match cs1 with
  | [] => none
  | c :: t =>
    let intPart : Option (List Char × List Char) :=
      if c = '0' then some (['0'], t)
      else if c.isDigit then
        let p := takeDigits t
        some (c :: p.1, p.2)
      else none
    match intPart with
    | none => none
    | some (ip, rest1) =>
      let fracPart : Option (List Char × List Char) :=
        match rest1 with
        | '.' :: t2 =>
          match takeDigits t2 with
          | ([], _) => none
          | (ds, r) => some ('.' :: ds, r)
        | _ => some ([], rest1)
      match fracPart with
      | none => none
      | some (fp, rest2) =>
        let expPart : Option (List Char × List Char) :=
          match rest2 with
          | c2 :: t3 =>
            if c2 = 'e' ∨ c2 = 'E' then
              let (es, t4) : List Char × List Char :=
                match t3 with
                | '+' :: t5 => (['+'], t5)
                | '-' :: t5 => (['-'], t5)
                | _ => ([], t3)
              match takeDigits t4 with
              | ([], _) => none
              | (ds, r) => some (c2 :: es ++ ds, r)
            else some ([], rest2)
          | [] => some ([], rest2)
        match expPart with
        | none => none
        | some (ep, rest3) => some (sign ++ ip ++ fp ++ ep, rest3)

/-- Literal keyword at the head of the input (`true`, `false`, `null`). -/
def dropKeyword (kw : List Char) (cs : List Char) : Option (List Char) :=
  match kw, cs with
  | [], rest => some rest
  | k :: kt, c :: ct => if c = k then dropKeyword kt ct else none
  | _ :: _, [] => none

mutual

/-- One JSON value; fuel bounds the mutual recursion (every two fuel
steps consume at least one input character, so `2 * length + 4` at the
top level never runs out). -/
def parseValue : Nat → List Char → Option (JsonVal × List Char)
  | 0, _ => none
  | fuel + 1, cs =>
    match skipWs cs with
    | [] => none
    | c :: rest =>
      if c = '"' then (parseStringChars rest).map (fun p => (.str ⟨p.1⟩, p.2))
      else if c = '[' then
        match skipWs rest with
        | ']' :: r => some (.arr [], r)
        | r => parseArrayRest fuel r []
      else if c = '\x7b' then
        match skipWs rest with
        | '\x7d' :: r => some (.obj [], r)
        | r => parseObjectRest fuel r []
      else if c = 't' then (dropKeyword ['r', 'u', 'e'] rest).map (fun r => (.bool true, r))
      else if c = 'f' then (dropKeyword ['a', 'l', 's', 'e'] rest).map (fun r => (.bool false, r))
      else if c = 'n' then (dropKeyword ['u', 'l', 'l'] rest).map (fun r => (.null, r))
      else if c = '-' ∨ c.isDigit then
        (parseNumberLexeme (c :: rest)).map (fun p => (.num ⟨p.1⟩, p.2))
      else none

/-- Array elements after `[` (first element pending). -/
def parseArrayRest : Nat → List Char → List JsonVal → Option (JsonVal × List Char)
  | 0, _, _ => none
  | fuel + 1, cs, acc =>
    match parseValue fuel cs with
    | none => none
    | some (v, r) =>
      match skipWs r with
      | ',' :: r2 => parseArrayRest fuel r2 (acc ++ [v])
      | ']' :: r2 => some (.arr (acc ++ [v]), r2)
      | _ => none

/-- Object members after `{` (first member pending). -/
def parseObjectRest : Nat → List Char → List (String × JsonVal) → Option (JsonVal × List Char)
  | 0, _, _ => none
  | fuel + 1, cs, acc =>
    match skipWs cs with
    | '"' :: r =>
      match parseStringChars r with
      | none => none
      | some (key, r2) =>
        match skipWs r2 with
        | ':' :: r3 =>
          match parseValue fuel r3 with
          | none => none
          | some (v, r4) =>
            match skipWs r4 with
            | ',' :: r5 => parseObjectRest fuel r5 (acc ++ [(⟨key⟩, v)])
            | '\x7d' :: r5 => some (.obj (acc ++ [(⟨key⟩, v)]), r5)
            | _ => none
        | _ => none
    | _ => none

end

/-- `JSON.parse`: one value, nothing but whitespace after it. -/
def parseJson (s : List Char) : Option JsonVal :=
  match parseValue (2 * s.length + 4) s with
  | some (v, r) => if skipWs r = [] then some v else none
  | none => none

/-! ## Quote/token normalization

`linkedAccounts.replace(/x/g, y)` in the scripts is a global,
leftmost-first, non-overlapping replacement of the literal substring `x`
(none of the patterns used contains a regex metacharacter). -/

/-- Fuel-driven worker for `replaceAll`; each step consumes at least one
input character, so fuel equal to the input length never runs out. -/
def replaceAllAux (pat rep : List Char) : Nat → List Char → List Char
  | 0, l => l
  | fuel + 1, l =>
    match l with
    | [] => []
    | c :: cs =>
      if pat.isPrefixOf l then rep ++ replaceAllAux pat rep fuel (l.drop pat.length)
      else c :: replaceAllAux pat rep fuel cs

/-- JavaScript `s.replace(/pat/g, rep)` for a literal pattern. -/
def replaceAll (l pat rep : List Char) : List Char :=
  replaceAllAux pat rep l.length l

/-- The single-quote character (code point 39). -/
def squote : Char := Char.ofNat 39

/-- Normalization of `extractSolanaAddress` (collection-mint script):
single quotes to double quotes, then `True`, `False`, `None` to `true`,
`false`, `null`, in that order. -/
def normalizeLinked (s : List Char) : List Char :=
  replaceAll (replaceAll (replaceAll (replaceAll s [squote] ['"'])
    "True".data "true".data) "False".data "false".data) "None".data "null".data

/-- Normalization of the compressed-mint script's inline extraction:
same replacements, order single quote, `None`, `False`, `True`. -/
def normalizeLinkedB (s : List Char) : List Char :=
  replaceAll (replaceAll (replaceAll (replaceAll s [squote] ['"'])
    "None".data "null".data) "False".data "false".data) "True".data "true".data

/-! ## Property access and `Array.prototype.find` -/

/-- Own-property lookup on a JavaScript object built by `JSON.parse`: a
duplicate key resolves to its last occurrence. -/
def lookupField : List (String × JsonVal) → String → Option JsonVal
  | [], _ => none
  | (k, v) :: rest, key =>
    match lookupField rest key with
    | some w => some w
    | none => if k = key then some v else none

/-- `v.key` where `v` came from `JSON.parse`: `none` is JavaScript
`undefined` (non-objects other than `null` have no such own property;
the `null` case, which throws, is handled at the call sites). -/
def getField (v : JsonVal) (key : String) : Option JsonVal :=
  match v with
  | .obj fields => lookupField fields key
  | _ => none

/-- `account.key === val` for a string literal `val`: `false` whenever
the property is absent or not that string. -/
def isStrField (v : JsonVal) (key val : String) : Bool :=
  match getField v key with
  | some (.str s) => s = val
  | _ => false

/-- The callback of `accounts.find(...)` in both extraction sites:
`account.type === "wallet" && account.chain_type === "solana"`. -/
def isSolanaWalletEntry (v : JsonVal) : Bool :=
  isStrField v "type" "wallet" && isStrField v "chain_type" "solana"

/-- The JSON `null` value (property access on it throws in
JavaScript). -/
def isNullJson : JsonVal → Bool
  | .null => true
  | _ => false

/-- `accounts.find(callback)`: `none` models the callback throwing
(property access on a `null` element is a TypeError, caught by the
enclosing `try`), `some none` no match, `some (some v)` the first
match. -/
def findSolanaWallet : List JsonVal → Option (Option JsonVal)
  | [] => some none
  | v :: rest =>
    if isNullJson v then none
    else if isSolanaWalletEntry v then some (some v)
    else findSolanaWallet rest

/-! ## The collection-mint script's extractor -/

/-- One CSV record as `csv-parse` with `columns: true` returns it: the
two columns the scripts read. -/
structure CsvRow where
  id : String
  linked_accounts : String

/-- The `User` interface: `solanaAddress` is whatever value the matching
entry's `address` property holds at runtime (`none` is `undefined`). -/
structure User where
  id : String
  solanaAddress : Option JsonVal

/-- `extractSolanaAddress` of the collection-mint script: normalize,
`JSON.parse`, find the first Solana wallet entry, return its `address`
property; any exception (parse failure, or property access on a `null`
element inside `find`) is caught and yields `undefined`. -/
def extractSolanaAddress (linkedAccounts : String) : Option JsonVal :=
  match parseJson (normalizeLinked linkedAccounts.data) with
  | none => none
  | some (.arr accounts) =>
    match findSolanaWallet accounts with
    | none => none
    | some none => none
    | some (some acct) => getField acct "address"
  | some _ => none   -- accounts.find is not a function: TypeError, caught

/-- The row-to-user map of `readUsersFromCSV`. -/
def toUser (r : CsvRow) : User :=
  { id := r.id, solanaAddress := extractSolanaAddress r.linked_accounts }

/-- `readUsersFromCSV` after the `csv-parse` call: map each record to a
`User` and keep those whose `solanaAddress` is not `undefined`. -/
def readUsersFromCSV (records : List CsvRow) : List User :=
  (records.map toUser).filter (fun u => u.solanaAddress.isSome)

/-- The compressed-mint script's inline extraction loop: per-row
`try`/`catch`, pushing the found entry's `address` property value. -/
def extractAddressesBubblegum : List CsvRow → List (Option JsonVal)
  | [] => []
  | r :: rest =>
    match parseJson (normalizeLinkedB r.linked_accounts.data) with
    | none => extractAddressesBubblegum rest
    | some (.arr accounts) =>
      match findSolanaWallet accounts with
      | none => extractAddressesBubblegum rest
      | some none => extractAddressesBubblegum rest
      | some (some acct) => getField acct "address" :: extractAddressesBubblegum rest
    | some _ => extractAddressesBubblegum rest

/-! ## The retry loop

Both upload and mint sites wrap an SDK call in
```
while (retryCount < maxRetries) {
  try { result = await op(); break; }
  catch (e) { retryCount++; if (retryCount === maxRetries) throw e;
              await sleep(5000); }
}
```
The operation's outcome is a function of the attempt index.
`retryLoopAux` recurses on `remaining = maxRetries - retryCount`
(`remaining = 0` is the loop guard failing, `remaining = 1` makes the
post-increment count hit `maxRetries`).  It returns the loop's outcome
(`some (.ok a)` a break with a value, `some (.error e)` the rethrown
last failure, `none` a normal exit with the result variable unset),
the number of invocations of the operation, and the list of sleeps
performed, in milliseconds. -/
def retryLoopAux (op : Nat → Except String α) (attempt : Nat) :
    Nat → Option (Except String α) × Nat × List Nat
  | 0 => (none, 0, [])
  | remaining + 1 =>
    match op attempt with
    | .ok a => (some (.ok a), 1, [])
    | .error e =>
      if remaining = 0 then (some (.error e), 1, [])
      else
        let r := retryLoopAux op (attempt + 1) remaining
        (r.1, r.2.1 + 1, 5000 :: r.2.2)

/-- The retry loop started at `retryCount`, with `op n` the outcome of
the operation's `n`-th invocation (counting from the start). -/
def retryLoop (op : Nat → Except String α) (maxRetries retryCount : Nat) :
    Option (Except String α) × Nat × List Nat :=
  retryLoopAux op retryCount (maxRetries - retryCount)

/-! ## The compressed-mint batch loop

```
const batchSize = 5;
for (let i = 0; i < addrs.length; i += batchSize) {
  const batch = addrs.slice(i, i + batchSize);
  for (const a of batch) { try { await mint(a); } catch (e) { log(e); } }
  if (i + batchSize < addrs.length) await sleep(2000);
}
```
-/

/-- The logged error of one per-recipient mint, `none` on success. -/
def errOf : Except String Unit → Option String
  | .ok _ => none
  | .error e => some e

/-- Fuel-driven worker for the batch loop; the index advances by the
batch size 5 each iteration, so fuel equal to the address-list length
never runs out.  Returns the batches in order, the trace of per-item
mint invocations (recipient, logged error), and the list of inter-batch
sleeps in milliseconds. -/
def batchMintAux (mint : α → Except String Unit) (addrs : List α) :
    Nat → Nat → List (List α) × List (α × Option String) × List Nat
  | _, 0 => ([], [], [])
  | i, fuel + 1 =>
    if i < addrs.length then
      let batch := (addrs.drop i).take 5
      let r := batchMintAux mint addrs (i + 5) fuel
      (batch :: r.1,
       batch.map (fun a => (a, errOf (mint a))) ++ r.2.1,
       (if i + 5 < addrs.length then [2000] else []) ++ r.2.2)
    else ([], [], [])

/-- The whole batch loop over `addrs`, with `mint a` the outcome of the
mint for recipient `a`. -/
def batchMintLoop (mint : α → Except String Unit) (addrs : List α) :
    List (List α) × List (α × Option String) × List Nat :=
  batchMintAux mint addrs 0 addrs.length

/-! ## The collection-mint per-user loop

```
for (const user of users) { await mintNFTForUser(...); await sleep(2000); }
```
`mintNFTForUser` catches, logs and rethrows, and the `for` loop has no
per-iteration handler, so a failure propagates to the run-level catch. -/

/-- The per-user loop: the ids of the users for which a mint was
attempted, and the propagated error if one failed. -/
def mintUsersLoop (mint : User → Except String Unit) :
    List User → List String × Option String
  | [] => ([], none)
  | u :: rest =>
    match mint u with
    | .error e => ([u.id], some e)
    | .ok _ =>
      let r := mintUsersLoop mint rest
      (u.id :: r.1, r.2)

/-! ## Network selection -/

structure NetworkConfig where
  rpcUrl : String
  bundlrAddress : String
  name : String
deriving DecidableEq

def mainnetConfig : NetworkConfig :=
  { rpcUrl := "https://api.mainnet-beta.solana.com",
    bundlrAddress := "https://node1.bundlr.network",
    name := "Mainnet Beta" }

def devnetConfig : NetworkConfig :=
  { rpcUrl := "https://api.devnet.solana.com",
    bundlrAddress := "https://devnet.bundlr.network",
    name := "Devnet" }

/-- `(process.argv[2] as Network) || "devnet"`: an absent argument is
`undefined` and an empty argument is falsy; both fall back to
`"devnet"`. -/
def selectNetworkToken (argv2 : Option String) : String :=
  match argv2 with
  | none => "devnet"
  | some s => if s = "" then "devnet" else s

/-- The own property names of `Object.prototype`: bracket access on a
plain object literal finds these through the prototype chain, so
`NETWORK_CONFIGS[t]` is a defined value (a function, or the object's
prototype for `__proto__`) for each of them. -/
def objectPrototypeKeys : List String :=
  ["constructor", "hasOwnProperty", "isPrototypeOf", "propertyIsEnumerable",
   "toLocaleString", "toString", "valueOf", "__proto__",
   "__defineGetter__", "__defineSetter__", "__lookupGetter__", "__lookupSetter__"]

/-- What `NETWORK_CONFIGS[network]` evaluates to: one of the two record
values for the object's own keys; for a key of `Object.prototype`, the
inherited member - defined, but no `NetworkConfig`, so its `rpcUrl`,
`bundlrAddress` and `name` properties are `undefined`; `undefined` for
every other key. -/
inductive ConfigLookup where
  | config (c : NetworkConfig)
  | inherited
  | undefinedKey
deriving DecidableEq

/-- `NETWORK_CONFIGS[network]`, prototype chain included. -/
def lookupNetworkConfig (network : String) : ConfigLookup :=
  if network = "mainnet" then .config mainnetConfig
  else if network = "devnet" then .config devnetConfig
  else if network ∈ objectPrototypeKeys then .inherited
  else .undefinedKey

/-- The network configuration the scripts select for a CLI argument. -/
def networkConfigFor (argv2 : Option String) : ConfigLookup :=
  lookupNetworkConfig (selectNetworkToken argv2)

/-! ## The script entry points -/

/-- The environment variables the scripts read. -/
structure Env where
  solanaRpcUrl : Option String
  solanaWsUrl : Option String
  walletPrivateKey : Option String

/-- `!process.env.X` for a string-valued variable: unset or empty is
falsy. -/
def jsFalsy : Option String → Bool
  | none => true
  | some s => s = ""

/-- External calls a run performs, in order. -/
inductive Effect where
  | connect
  | uploadImage
  | uploadMetadata
  | mintNft
  | rpcGetSlot
  | rpcGetBlockTime
  | getBalance
  | createTree
  | uploadJson
  | mintCompressed
deriving DecidableEq

/-- `process.env.SOLANA_RPC_URL || config.rpcUrl`: the override wins
when truthy; otherwise reading `rpcUrl` off the lookup result throws a
TypeError when the config is `undefined`, yields the `undefined` value
(`ok none`) without throwing when the config is an inherited prototype
member, and yields the URL for a real config. -/
def rpcUrlOf (env : Env) (lookup : ConfigLookup) : Except String (Option String) :=
  match env.solanaRpcUrl with
  | some u =>
    if u = "" then
      match lookup with
      | .config c => .ok (some c.rpcUrl)
      | .inherited => .ok none
      | .undefinedKey => .error "TypeError: Cannot read properties of undefined"
    else .ok (some u)
  | none =>
    match lookup with
    | .config c => .ok (some c.rpcUrl)
    | .inherited => .ok none
    | .undefinedKey => .error "TypeError: Cannot read properties of undefined"

/-- `main` of the single-NFT mint script (`src/index.ts`), at the
granularity of its external calls: network selection, connection setup,
the private-key guard, Metaplex/Bundlr setup, then the `try` block
(read image, upload with retry, upload metadata, mint with retry).  The
parameters supply each external call's outcome (`upload n` / `mintOp n`
the `n`-th attempt).  The result is the trace of external calls
performed and the logged error, if any: errors thrown before the `try`
block reach `main().catch(console.error)`, errors inside it the
`catch` at the end of `main`; either way the run stops there and the
message is logged. -/
def mainIndexRun (env : Env) (argv2 : Option String) (decodeRes : Except String Unit)
    (imageRead : Except String Unit) (upload : Nat → Except String String)
    (metaUpload : Except String String) (mintOp : Nat → Except String Unit) :
    List Effect × Option String :=
  let lookup := networkConfigFor argv2
  match rpcUrlOf env lookup with
  | .error e => ([], some e)
  | .ok _ =>
    if jsFalsy env.walletPrivateKey then
      ([.connect], some "WALLET_PRIVATE_KEY is not set in .env file")
    else
      match decodeRes with      -- bs58.decode / Keypair.fromSecretKey
      | .error e => ([.connect], some e)
      | .ok _ =>
        match lookup with       -- config.bundlrAddress in the Bundlr setup:
        | .undefinedKey => ([.connect], some "TypeError: Cannot read properties of undefined")
        | _ =>                  -- defined (own or inherited): no throw here
          match imageRead with  -- fs.readFileSync of the image
          | .error e => ([.connect], some e)
          | .ok _ =>
            let r := retryLoop upload 3 0
            let utrace := Effect.connect :: List.replicate r.2.1 Effect.uploadImage
            match r.1 with
            | some (.error e) => (utrace, some e)
            | none => (utrace, some "Failed to upload image after all retries")
            | some (.ok uri) =>
              if uri = "" then   -- `if (!imageUri) throw ...`
                (utrace, some "Failed to upload image after all retries")
              else
                let mtrace := utrace ++ [Effect.uploadMetadata]
                match metaUpload with
                | .error e => (mtrace, some e)
                | .ok _ =>
                  let mr := retryLoop mintOp 3 0
                  let ftrace := mtrace ++ List.replicate mr.2.1 Effect.mintNft
                  match mr.1 with
                  | some (.error e) => (ftrace, some e)
                  | none => (ftrace, some "Failed to mint NFT after all retries")
                  | some (.ok _) => (ftrace, none)

/-- `main` of the compressed-mint script, at the granularity of its
external calls: the private-key guard comes first; then the RPC probe
(whose failure logs and returns normally), key decoding, the balance
gate (insufficient balance returns normally), Merkle-tree creation,
metadata upload, the CSV extraction and the batch mint loop. -/
def mainBubblegumRun (env : Env) (slotRes : Except String Nat)
    (blockTimeRes : Except String (Option Nat)) (decodeRes : Except String Unit)
    (balanceRes : Except String Nat) (treeRes : Except String Unit)
    (uploadJsonRes : Except String String) (csvRead : Except String (List CsvRow))
    (mint : Option JsonVal → Except String Unit) : List Effect × Option String :=
  if jsFalsy env.walletPrivateKey then
    ([], some "WALLET_PRIVATE_KEY is not set in .env file")
  else
    match slotRes with
    | .error _ => ([.rpcGetSlot], none)   -- logged, early return
    | .ok _ =>
      match blockTimeRes with
      | .error _ => ([.rpcGetSlot, .rpcGetBlockTime], none)   -- logged, early return
      | .ok _ =>
        let t2 : List Effect := [.rpcGetSlot, .rpcGetBlockTime]
        match decodeRes with
        | .error e => (t2, some e)
        | .ok _ =>
          match balanceRes with
          | .error _ => (t2 ++ [.getBalance], none)   -- logged, early return
          | .ok balance =>
            let t3 := t2 ++ [Effect.getBalance]
            if balance < 1000000000 then (t3, none)   -- airdrop hint, early return
            else
              match treeRes with
              | .error e => (t3 ++ [.createTree], some e)
              | .ok _ =>
                let t4 := t3 ++ [Effect.createTree]
                match uploadJsonRes with
                | .error e => (t4 ++ [.uploadJson], some e)
                | .ok _ =>
                  let t5 := t4 ++ [Effect.uploadJson]
                  match csvRead with
                  | .error e => (t5, some e)
                  | .ok rows =>
                    let addrs := extractAddressesBubblegum rows
                    let b := batchMintLoop mint addrs
                    (t5 ++ b.2.1.map (fun _ => Effect.mintCompressed), none)

/-! ## Helper lemmas -/

theorem batchMintAux_spec (mint : α → Except String Unit) (addrs : List α) :
    ∀ fuel i, addrs.length - i ≤ fuel →
      (batchMintAux mint addrs i fuel).1.flatten = addrs.drop i ∧
      (batchMintAux mint addrs i fuel).2.1.map Prod.fst = addrs.drop i := by
  intro fuel
  induction fuel with
  | zero =>
    intro i h
    have : addrs.drop i = [] := List.drop_eq_nil_of_le (by omega)
    simp [batchMintAux, this]
  | succ n ih =>
    intro i h
    by_cases hi : i < addrs.length
    · have hrec := ih (i + 5) (by omega)
      have hdrop : (addrs.drop i).take 5 ++ addrs.drop (i + 5) = addrs.drop i := by
        rw [← List.drop_drop (n := 5) (m := i)]
        exact List.take_append_drop 5 (addrs.drop i)
      have hunf : batchMintAux mint addrs i (n + 1) =
          ((addrs.drop i).take 5 :: (batchMintAux mint addrs (i + 5) n).1,
           ((addrs.drop i).take 5).map (fun a => (a, errOf (mint a)))
             ++ (batchMintAux mint addrs (i + 5) n).2.1,
           (if i + 5 < addrs.length then [2000] else [])
             ++ (batchMintAux mint addrs (i + 5) n).2.2) := by
        simp [batchMintAux, hi]
      rw [hunf]
      constructor
      · show (addrs.drop i).take 5 ++ (batchMintAux mint addrs (i + 5) n).1.flatten = _
        rw [hrec.1, hdrop]
      · show (((addrs.drop i).take 5).map (fun a => (a, errOf (mint a)))
            ++ (batchMintAux mint addrs (i + 5) n).2.1).map Prod.fst = _
        rw [List.map_append, List.map_map]
        have hcomp : (Prod.fst ∘ fun a : α => (a, errOf (mint a))) = id :=
          funext (fun _ => rfl)
        rw [hcomp, List.map_id, hrec.2, hdrop]
    · have : addrs.drop i = [] := List.drop_eq_nil_of_le (by omega)
      simp [batchMintAux, hi, this]

theorem batchMintLoop_trace (mint : α → Except String Unit) (addrs : List α) :
    (batchMintLoop mint addrs).2.1.map Prod.fst = addrs := by
  have := (batchMintAux_spec mint addrs addrs.length 0 (by omega)).2
  simpa [batchMintLoop] using this

theorem batchMintLoop_flatten (mint : α → Except String Unit) (addrs : List α) :
    (batchMintLoop mint addrs).1.flatten = addrs := by
  have := (batchMintAux_spec mint addrs addrs.length 0 (by omega)).1
  simpa [batchMintLoop] using this

/-! ## Claims -/

/-- Claim C1: around an operation wrapped by the retry loop with maximum
attempt count 3 and a 5-second inter-attempt delay: an operation that
fails twice then succeeds yields the success value after exactly 3
invocations and 2 delays of 5000 ms; an operation that always fails is
invoked exactly 3 times and the last failure is propagated; a success
on attempt `k` short-circuits, with `k + 1` invocations and `k`
delays. -/
theorem claim_C1_retry_loop (op : Nat → Except String α) :
    (∀ e0 e1 a, op 0 = .error e0 → op 1 = .error e1 → op 2 = .ok a →
      retryLoop op 3 0 = (some (.ok a), 3, [5000, 5000])) ∧
    (∀ es : Nat → String, (∀ i, i < 3 → op i = .error (es i)) →
      retryLoop op 3 0 = (some (.error (es 2)), 3, [5000, 5000])) ∧
    (∀ k a, k < 3 → (∀ i, i < k → ∃ e, op i = .error e) → op k = .ok a →
      retryLoop op 3 0 = (some (.ok a), k + 1, List.replicate k 5000)) := by
  refine ⟨?_, ?_, ?_⟩
  · intro e0 e1 a h0 h1 h2
    simp [retryLoop, retryLoopAux, h0, h1, h2]
  · intro es h
    have h0 := h 0 (by omega)
    have h1 := h 1 (by omega)
    have h2 := h 2 (by omega)
    simp [retryLoop, retryLoopAux, h0, h1, h2]
  · intro k a hk hfail hok
    interval_cases k
    · simp [retryLoop, retryLoopAux, hok]
    · obtain ⟨e0, h0⟩ := hfail 0 (by omega)
      simp [retryLoop, retryLoopAux, h0, hok]
    · obtain ⟨e0, h0⟩ := hfail 0 (by omega)
      obtain ⟨e1, h1⟩ := hfail 1 (by omega)
      simp [retryLoop, retryLoopAux, h0, h1, hok]

/-- An operation failing on its first two invocations, succeeding on the
third. -/
def opFailTwice : Nat → Except String Nat :=
  fun n => if n < 2 then .error "boom" else .ok 7

theorem claim_C1_retry_loop_witness :
    retryLoop opFailTwice 3 0 = (some (.ok 7), 3, [5000, 5000]) :=
  (claim_C1_retry_loop opFailTwice).1 "boom" "boom" 7 rfl rfl rfl

/-- Claim C2: the compressed-NFT batch loop with batch size 5 partitions
the recipient list into contiguous order-preserving batches; the
per-item mint is invoked once per recipient in the original order; with
12 recipients the batch sizes are [5, 5, 2], there are 12 invocations,
and exactly 2 inter-batch sleeps of 2000 ms. -/
theorem claim_C2_batch_loop (mint : String → Except String Unit) (addrs : List String) :
    (batchMintLoop mint addrs).1.flatten = addrs ∧
    (batchMintLoop mint addrs).2.1.map Prod.fst = addrs ∧
    (addrs.length = 12 →
      (batchMintLoop mint addrs).1.map List.length = [5, 5, 2] ∧
      (batchMintLoop mint addrs).2.1.length = 12 ∧
      (batchMintLoop mint addrs).2.2 = [2000, 2000]) := by
  refine ⟨batchMintLoop_flatten mint addrs, batchMintLoop_trace mint addrs, ?_⟩
  intro h12
  have hlen : (batchMintLoop mint addrs).2.1.length = 12 := by
    have := congrArg List.length (batchMintLoop_trace mint addrs)
    simpa [h12] using this
  refine ⟨?_, hlen, ?_⟩
  · show (batchMintAux mint addrs 0 addrs.length).1.map List.length = [5, 5, 2]
    rw [h12]
    simp [batchMintAux, h12, List.length_take, List.length_drop]
  · show (batchMintAux mint addrs 0 addrs.length).2.2 = [2000, 2000]
    rw [h12]
    simp [batchMintAux, h12]

/-- Twelve concrete recipients. -/
def addrs12 : List String :=
  ["a1", "a2", "a3", "a4", "a5", "a6", "a7", "a8", "a9", "a10", "a11", "a12"]

theorem claim_C2_batch_loop_witness :
    (batchMintLoop (fun _ => Except.ok ()) addrs12).1.map List.length = [5, 5, 2] ∧
    (batchMintLoop (fun _ => Except.ok ()) addrs12).2.2 = [2000, 2000] :=
  ⟨((claim_C2_batch_loop (fun _ => Except.ok ()) addrs12).2.2 rfl).1,
   ((claim_C2_batch_loop (fun _ => Except.ok ()) addrs12).2.2 rfl).2.2⟩

/-- A per-user mint that fails for the user with id "1" and succeeds
for every other user. -/
def mintFailOn1 : User → Except String Unit :=
  fun u => if u.id = "1" then .error "mint failed" else .ok ()

/-- Claim C5 (counterexample): in the standard per-user mint loop a
failing mint is rethrown by `mintNFTForUser` and no per-iteration
handler exists, so iteration does not continue: with two users and the
first mint failing, the second user is never attempted. -/
theorem claim_C5_counterexample :
    mintUsersLoop mintFailOn1 [⟨"1", none⟩, ⟨"2", none⟩] = (["1"], some "mint failed") ∧
    ("2" ∈ (mintUsersLoop mintFailOn1 [⟨"1", none⟩, ⟨"2", none⟩]).1 → False) :=
  ⟨rfl, by decide⟩

/-- Claim C5 (amended): in the compressed-NFT batch loop an individual
mint failure is logged and iteration continues, every recipient being
attempted exactly once in order; in the standard per-user mint loop of
the collection-mint script, the first failing mint propagates and ends
the loop, the remaining users unattempted. -/
theorem claim_C5_per_recipient_failure (mintC : String → Except String Unit)
    (addrs : List String) (mintU : User → Except String Unit)
    (us₁ us₂ : List User) (u : User) (e : String) :
    (batchMintLoop mintC addrs).2.1.map Prod.fst = addrs ∧
    ((∀ v ∈ us₁, mintU v = .ok ()) → mintU u = .error e →
      mintUsersLoop mintU (us₁ ++ u :: us₂) = (us₁.map User.id ++ [u.id], some e)) := by
  refine ⟨batchMintLoop_trace mintC addrs, ?_⟩
  intro hok hu
  induction us₁ with
  | nil => simp [mintUsersLoop, hu]
  | cons v rest ih =>
    have hv : mintU v = .ok () := hok v (List.mem_cons_self v rest)
    have hrest : ∀ w ∈ rest, mintU w = .ok () :=
      fun w hw => hok w (List.mem_cons_of_mem v hw)
    simp [mintUsersLoop, hv, ih hrest]

theorem claim_C5_per_recipient_failure_witness :
    mintUsersLoop mintFailOn1 [⟨"0", none⟩, ⟨"1", none⟩, ⟨"2", none⟩] =
      (["0", "1"], some "mint failed") :=
  (claim_C5_per_recipient_failure (fun _ => Except.ok ()) [] mintFailOn1
    [⟨"0", none⟩] [⟨"2", none⟩] ⟨"1", none⟩ "mint failed").2
    (fun v hv => by rw [List.mem_singleton] at hv; subst hv; rfl) rfl

/-- Claim C6 (counterexample): the empty string is a token outside
{"mainnet", "devnet"}, yet `(argv[2] as Network) || "devnet"` treats it
as falsy, so it selects the devnet configuration instead of being a
configuration error. -/
theorem claim_C6_counterexample :
    ("" = "mainnet" → False) ∧ ("" = "devnet" → False) ∧
    networkConfigFor (some "") = .config devnetConfig :=
  ⟨by decide, by decide, rfl⟩

/-- Claim C6 (amended): the token "mainnet" selects the mainnet RPC URL
and display name "Mainnet Beta"; an omitted or empty token selects the
devnet configuration; a token naming an `Object.prototype` member
(`toString`, `hasOwnProperty`, ...) selects the defined inherited
member, whose `rpcUrl` is `undefined` but whose dereference does not
throw; every other token yields `undefined`, and then every run of the
single-NFT script ends in an error - at the first configuration
dereference or at a later guard - before any upload or mint call. -/
theorem claim_C6_network_selector :
    networkConfigFor (some "mainnet") = .config mainnetConfig ∧
    mainnetConfig.rpcUrl = "https://api.mainnet-beta.solana.com" ∧
    mainnetConfig.name = "Mainnet Beta" ∧
    networkConfigFor none = .config devnetConfig ∧
    networkConfigFor (some "") = .config devnetConfig ∧
    (∀ t ∈ objectPrototypeKeys, networkConfigFor (some t) = .inherited ∧
      rpcUrlOf ⟨none, none, none⟩ (networkConfigFor (some t)) = .ok none) ∧
    ∀ t : String, t ≠ "mainnet" → t ≠ "devnet" → t ≠ "" →
      t ∉ objectPrototypeKeys →
      networkConfigFor (some t) = .undefinedKey ∧
      ∀ env decodeRes imageRead upload metaUpload mintOp,
        (mainIndexRun env (some t) decodeRes imageRead upload metaUpload mintOp).2.isSome
            = true ∧
        Effect.uploadImage ∉
          (mainIndexRun env (some t) decodeRes imageRead upload metaUpload mintOp).1 ∧
        Effect.mintNft ∉
          (mainIndexRun env (some t) decodeRes imageRead upload metaUpload mintOp).1 := by
  refine ⟨rfl, rfl, rfl, rfl, rfl, ?_, ?_⟩
  · intro t ht
    fin_cases ht <;> exact ⟨rfl, rfl⟩
  · intro t h1 h2 h3 h4
    have hl : networkConfigFor (some t) = .undefinedKey := by
      simp [networkConfigFor, selectNetworkToken, lookupNetworkConfig, h1, h2, h3, h4]
    refine ⟨hl, ?_⟩
    intro env decodeRes imageRead upload metaUpload mintOp
    rcases henv : env.solanaRpcUrl with _ | u
    · simp [mainIndexRun, rpcUrlOf, henv, hl]
    · by_cases hu : u = ""
      · simp [mainIndexRun, rpcUrlOf, henv, hu, hl]
      · by_cases hk : jsFalsy env.walletPrivateKey
        · simp [mainIndexRun, rpcUrlOf, henv, hu, hk, hl]
        · rcases decodeRes with e | v
          · simp [mainIndexRun, rpcUrlOf, henv, hu, hk, hl]
          · simp [mainIndexRun, rpcUrlOf, henv, hu, hk, hl]

theorem claim_C6_network_selector_witness :
    networkConfigFor (some "testnet") = ConfigLookup.undefinedKey ∧
    networkConfigFor (some "toString") = ConfigLookup.inherited :=
  ⟨(claim_C6_network_selector.2.2.2.2.2.2 "testnet"
      (by decide) (by decide) (by decide) (by decide)).1,
   (claim_C6_network_selector.2.2.2.2.2.1 "toString" (by decide)).1⟩

/-- What `find` returns is a matching element of the list. -/
theorem findSolanaWallet_sound (accounts : List JsonVal) (acct : JsonVal)
    (h : findSolanaWallet accounts = some (some acct)) :
    acct ∈ accounts ∧ isSolanaWalletEntry acct = true := by
  induction accounts with
  | nil => simp [findSolanaWallet] at h
  | cons v rest ih =>
    by_cases hn : isNullJson v
    · simp [findSolanaWallet, hn] at h
    · by_cases hw : isSolanaWalletEntry v
      · have hv : v = acct := by simpa [findSolanaWallet, hn, hw] using h
        subst hv
        exact ⟨List.mem_cons_self v rest, hw⟩
      · have h' := by simpa [findSolanaWallet, hn, hw] using h
        exact ⟨List.mem_cons_of_mem v (ih h').1, (ih h').2⟩

/-- `find` over a list with no matching element does not find one: it
either throws on a `null` element or reports no match. -/
theorem findSolanaWallet_no_match (accounts : List JsonVal)
    (h : accounts.any isSolanaWalletEntry = false) :
    findSolanaWallet accounts = none ∨ findSolanaWallet accounts = some none := by
  induction accounts with
  | nil => right; rfl
  | cons v rest ih =>
    rw [List.any_cons, Bool.or_eq_false_iff] at h
    by_cases hn : isNullJson v
    · left; simp [findSolanaWallet, hn]
    · have := ih h.2
      simpa [findSolanaWallet, hn, h.1] using this

/-- Claim C3 (counterexample): a row whose normalized text parses as an
array that does contain a Solana-wallet entry, but where a `null`
element precedes it: the callback of `find` throws on the `null`
element, the exception is caught, and the row is dropped instead of its
address being returned. -/
theorem claim_C3_counterexample :
    parseJson (normalizeLinked
        "[None, \x7b\'type\': \'wallet\', \'chain_type\': \'solana\', \'address\': \'Addr1\'\x7d]".data) =
      some (.arr [.null,
        .obj [("type", .str "wallet"), ("chain_type", .str "solana"),
              ("address", .str "Addr1")]]) ∧
    isSolanaWalletEntry
      (.obj [("type", .str "wallet"), ("chain_type", .str "solana"),
             ("address", .str "Addr1")]) = true ∧
    extractSolanaAddress
      "[None, \x7b\'type\': \'wallet\', \'chain_type\': \'solana\', \'address\': \'Addr1\'\x7d]" = none ∧
    readUsersFromCSV [⟨"1",
      "[None, \x7b\'type\': \'wallet\', \'chain_type\': \'solana\', \'address\': \'Addr1\'\x7d]"⟩] = [] :=
  ⟨rfl, rfl, rfl, rfl⟩

/-- Claim C3 (amended): for every row whose normalized `linked_accounts`
text parses as a JSON array in which `find` reaches a first entry with
`type == "wallet"` and `chain_type == "solana"` (no `null` element
precedes it), the extractor returns that first matching entry's
`address` property, and the row's `UserRecord` carries it. -/
theorem claim_C3_first_match (s : String) (accounts : List JsonVal) (acct : JsonVal)
    (hparse : parseJson (normalizeLinked s.data) = some (.arr accounts))
    (hfind : findSolanaWallet accounts = some (some acct)) :
    acct ∈ accounts ∧ isSolanaWalletEntry acct = true ∧
    extractSolanaAddress s = getField acct "address" ∧
    ∀ i rest, readUsersFromCSV (⟨i, s⟩ :: rest) =
      (if (getField acct "address").isSome then
        [⟨i, getField acct "address"⟩] else []) ++ readUsersFromCSV rest := by
  obtain ⟨hmem, hmatch⟩ := findSolanaWallet_sound accounts acct hfind
  have hex : extractSolanaAddress s = getField acct "address" := by
    simp [extractSolanaAddress, hparse, hfind]
  refine ⟨hmem, hmatch, hex, ?_⟩
  intro i rest
  cases haddr : getField acct "address" with
  | none => simp [readUsersFromCSV, toUser, hex, haddr]
  | some v => simp [readUsersFromCSV, toUser, hex, haddr]

theorem claim_C3_first_match_witness :
    readUsersFromCSV [⟨"42",
      "[\x7b\'type\': \'wallet\', \'chain_type\': \'solana\', \'address\': \'AbC123\'\x7d, \x7b\'type\': \'email\'\x7d]"⟩] =
      [⟨"42", some (.str "AbC123")⟩] :=
  ((claim_C3_first_match
      "[\x7b\'type\': \'wallet\', \'chain_type\': \'solana\', \'address\': \'AbC123\'\x7d, \x7b\'type\': \'email\'\x7d]"
      [.obj [("type", .str "wallet"), ("chain_type", .str "solana"),
             ("address", .str "AbC123")],
       .obj [("type", .str "email")]]
      (.obj [("type", .str "wallet"), ("chain_type", .str "solana"),
             ("address", .str "AbC123")])
      rfl rfl).2.2.2 "42" []).trans rfl

/-- A parse outcome that contains an entry with `type == "wallet"` and
`chain_type == "solana"`: `false` both when the text failed to parse
and when no such entry exists. -/
def hasMatchingEntry : Option JsonVal → Bool
  | some (.arr accounts) => accounts.any isSolanaWalletEntry
  | _ => false

/-- Claim C4: a row whose `linked_accounts` text fails to parse after
normalization, or parses without an entry with `type == "wallet"` and
`chain_type == "solana"`, yields `undefined` (the per-row `try`/`catch`
confines any exception), and the row is excluded from the output while
the surrounding rows are processed normally. -/
theorem claim_C4_bad_rows (r : CsvRow) (records₁ records₂ : List CsvRow)
    (h : hasMatchingEntry (parseJson (normalizeLinked r.linked_accounts.data)) = false) :
    extractSolanaAddress r.linked_accounts = none ∧
    readUsersFromCSV (records₁ ++ r :: records₂) =
      readUsersFromCSV records₁ ++ readUsersFromCSV records₂ := by
  have hex : extractSolanaAddress r.linked_accounts = none := by
    unfold extractSolanaAddress
    cases hp : parseJson (normalizeLinked r.linked_accounts.data) with
    | none => rfl
    | some v =>
      cases v with
      | arr accounts =>
        rw [hp] at h
        rcases findSolanaWallet_no_match accounts (by simpa [hasMatchingEntry] using h)
          with h' | h' <;> simp [h']
      | null => rfl
      | bool b => rfl
      | num l => rfl
      | str t => rfl
      | obj fs => rfl
  refine ⟨hex, ?_⟩
  simp [readUsersFromCSV, List.map_append, List.filter_append, toUser, hex]

theorem claim_C4_bad_rows_witness :
    extractSolanaAddress "[\x7b\'type\': \'email\'\x7d]" = none ∧
    readUsersFromCSV [⟨"9", "[\x7b\'type\': \'email\'\x7d]"⟩] = [] :=
  claim_C4_bad_rows ⟨"9", "[\x7b\'type\': \'email\'\x7d]"⟩ [] [] rfl

/-- Claim C7 (counterexample): the filter keeps any row whose extracted
address is not `undefined`; an empty-string address is defined, so a
returned record can carry the empty string. -/
theorem claim_C7_counterexample :
    readUsersFromCSV [⟨"1",
      "[\x7b\'type\': \'wallet\', \'chain_type\': \'solana\', \'address\': \'\'\x7d]"⟩] =
      [⟨"1", some (.str "")⟩] ∧
    (⟨"1", some (JsonVal.str "")⟩ : User) ∈ readUsersFromCSV [⟨"1",
      "[\x7b\'type\': \'wallet\', \'chain_type\': \'solana\', \'address\': \'\'\x7d]"⟩] :=
  ⟨rfl, List.Mem.head _⟩

/-- Claim C7 (amended): every record the extractor returns has a
defined (`!== undefined`) `solanaAddress`; it need not be a non-empty
string. -/
theorem claim_C7_defined_addresses (records : List CsvRow) :
    ∀ u ∈ readUsersFromCSV records, u.solanaAddress.isSome = true := by
  intro u hu
  rw [readUsersFromCSV] at hu
  exact (List.mem_filter.mp hu).2

theorem claim_C7_defined_addresses_witness :
    (⟨"42", some (JsonVal.str "AbC123")⟩ : User).solanaAddress.isSome = true :=
  claim_C7_defined_addresses
    [⟨"42", "[\x7b\'type\': \'wallet\', \'chain_type\': \'solana\', \'address\': \'AbC123\'\x7d]"⟩]
    ⟨"42", some (JsonVal.str "AbC123")⟩ (List.Mem.head _)

/-- Claim C9: the normalization is a global substring replacement, not
a token-aware one: it rewrites `None` and single quotes even inside
quoted string values.  A wallet address containing `None` is returned
altered (`AbNoneCd` comes back `AbnullCd`), and an address containing
an apostrophe breaks the JSON so the row is dropped. -/
theorem claim_C9_global_replacement :
    normalizeLinked
        "[\x7b\'type\': \'wallet\', \'chain_type\': \'solana\', \'address\': \'AbNoneCd\'\x7d]".data =
      "[\x7b\"type\": \"wallet\", \"chain_type\": \"solana\", \"address\": \"AbnullCd\"\x7d]".data ∧
    extractSolanaAddress
      "[\x7b\'type\': \'wallet\', \'chain_type\': \'solana\', \'address\': \'AbNoneCd\'\x7d]" =
      some (.str "AbnullCd") ∧
    extractSolanaAddress
      "[\x7b\'type\': \'wallet\', \'chain_type\': \'solana\', \'address\': \'O\'Brien\'\x7d]" =
      none :=
  ⟨rfl, rfl, rfl⟩

/-- Claim C10: the extractor's output is an order-preserving
subsequence of the input rows: it is exactly the per-row map of the
rows that yield a defined address (so each record comes from a distinct
row, in row order, with that row's id), and its length never exceeds
the number of rows. -/
theorem claim_C10_subsequence (records : List CsvRow) :
    readUsersFromCSV records =
      (records.filter (fun r => (extractSolanaAddress r.linked_accounts).isSome)).map toUser ∧
    List.Sublist (readUsersFromCSV records) (records.map toUser) ∧
    (readUsersFromCSV records).length ≤ records.length := by
  refine ⟨?_, ?_, ?_⟩
  · rw [readUsersFromCSV, List.filter_map]
    rfl
  · exact List.filter_sublist (records.map toUser)
  · calc (readUsersFromCSV records).length
        ≤ (records.map toUser).length := List.Sublist.length_le
          (List.filter_sublist (records.map toUser))
      _ = records.length := List.length_map records toUser

/-- Claim C8: when `WALLET_PRIVATE_KEY` is absent, each minting script
raises before any upload or mint call: the single-NFT script's run ends
with an error and its trace holds no upload, metadata-upload or mint
call (the key guard precedes the `try` block; the only error that can
precede it is the network-configuration TypeError, which also stops the
run with an empty trace), and the compressed-mint script's run stops at
its first statement with the key error and an empty trace. -/
theorem claim_C8_key_guard (env : Env) (argv2 : Option String)
    (decodeRes : Except String Unit) (imageRead : Except String Unit)
    (upload : Nat → Except String String) (metaUpload : Except String String)
    (mintOp : Nat → Except String Unit)
    (slotRes : Except String Nat) (blockTimeRes : Except String (Option Nat))
    (balanceRes : Except String Nat) (treeRes : Except String Unit)
    (uploadJsonRes : Except String String) (csvRead : Except String (List CsvRow))
    (mint : Option JsonVal → Except String Unit)
    (hkey : env.walletPrivateKey = none) :
    ((mainIndexRun env argv2 decodeRes imageRead upload metaUpload mintOp).2.isSome = true ∧
     Effect.uploadImage ∉ (mainIndexRun env argv2 decodeRes imageRead upload metaUpload mintOp).1 ∧
     Effect.uploadMetadata ∉ (mainIndexRun env argv2 decodeRes imageRead upload metaUpload mintOp).1 ∧
     Effect.mintNft ∉ (mainIndexRun env argv2 decodeRes imageRead upload metaUpload mintOp).1) ∧
    mainBubblegumRun env slotRes blockTimeRes decodeRes balanceRes treeRes uploadJsonRes
        csvRead mint =
      ([], some "WALLET_PRIVATE_KEY is not set in .env file") := by
  have hfalsy : jsFalsy env.walletPrivateKey = true := by simp [jsFalsy, hkey]
  constructor
  · rcases hr : rpcUrlOf env (networkConfigFor argv2) with e | u
    · simp [mainIndexRun, hr]
    · simp [mainIndexRun, hr, hfalsy]
  · simp [mainBubblegumRun, hfalsy]

/-- An environment with no variable set. -/
def env0 : Env := ⟨none, none, none⟩

theorem claim_C8_key_guard_witness :
    mainBubblegumRun env0 (.ok 1) (.ok none) (.ok ()) (.ok 0) (.ok ()) (.ok "u")
        (.ok []) (fun _ => .ok ()) =
      ([], some "WALLET_PRIVATE_KEY is not set in .env file") :=
  (claim_C8_key_guard env0 none (.ok ()) (.ok ()) (fun _ => .ok "uri") (.ok "m")
    (fun _ => .ok ()) (.ok 1) (.ok none) (.ok 0) (.ok ()) (.ok "u") (.ok [])
    (fun _ => .ok ()) rfl).2

end NftMint
